import Mathlib

/-!
Shallow embedding of the verso-green compositor core (memory pressure
monitor, frame pacer, scroll coalescer, paint-metric state machine and
pipeline resource tracker), with theorems checking the specification's
claims against the code.

Conventions of the embedding:
* Rust `f64`/`f32` quantities (thresholds, durations in seconds, scroll
  deltas, cache factors) are modelled as `ℚ`; only comparisons and exact
  arithmetic on representable values occur in the verified statements.
* `std::time::Instant` is modelled as an explicit timestamp parameter
  (`ℚ` in seconds for the pacer and the monitor, `ℕ` in milliseconds for
  the coalescer, matching `as_millis as u64`); `Instant::elapsed` and
  `duration_since` saturate at zero, as in Rust.
* Counters (`u32`/`u64`) are modelled as `ℕ`: none of the verified
  scenarios approach wrap-around.
-/

namespace VersoGreen

/-! ### Memory pressure (src/memory_pressure.rs) -/

/-- Memory pressure severity levels (`MemoryPressureLevel`). -/
inductive MemoryPressureLevel where
  | Normal
  | Warning
  | Critical
  deriving DecidableEq, Repr

/-- Configuration for memory pressure handling (`MemoryPressureConfig`).
`check_interval` is in seconds. -/
structure MemoryPressureConfig where
  warning_threshold : ℚ
  critical_threshold : ℚ
  check_interval : ℚ
  warning_cache_factor : ℚ
  critical_cache_factor : ℚ
  deriving DecidableEq, Repr

/-- The `Default` impl for `MemoryPressureConfig`. -/
def MemoryPressureConfig.default : MemoryPressureConfig :=
  { warning_threshold := 70
    critical_threshold := 90
    check_interval := 5
    warning_cache_factor := 1/2
    critical_cache_factor := 1/4 }

/-- Memory pressure monitor state (`MemoryPressureMonitor`); `last_check`
is the timestamp (seconds) of the last due check. -/
structure MemoryPressureMonitor where
  config : MemoryPressureConfig
  last_check : ℚ
  current_level : MemoryPressureLevel
  deriving DecidableEq, Repr

/-- The `MemoryPressureMonitor::new` constructor: `last_check` is the
creation instant and the level starts at `Normal`. -/
def MemoryPressureMonitor.new (config : MemoryPressureConfig) (now : ℚ) :
    MemoryPressureMonitor :=
  { config := config, last_check := now, current_level := .Normal }

/-- The `should_check` method: true when at least `check_interval` has
elapsed since `last_check` (elapsed time saturates at zero). -/
def MemoryPressureMonitor.should_check (m : MemoryPressureMonitor) (now : ℚ) : Bool :=
  decide (m.config.check_interval ≤ max (now - m.last_check) 0)

/-- The level classification performed inside `check`: strictly above the
critical threshold is `Critical`, otherwise strictly above the warning
threshold is `Warning`, otherwise `Normal`. -/
def classifyUsage (config : MemoryPressureConfig) (usage : ℚ) : MemoryPressureLevel :=
  if config.critical_threshold < usage then .Critical
  else if config.warning_threshold < usage then .Warning
  else .Normal

/-- The `check` method. The sampled utilization percentage is passed in as
`usage` (the Rust code obtains it from `get_memory_usage_percent`); when the
check is not yet due the sample is not consulted and the cached level is
returned with the state unchanged. Returns (level, updated monitor). -/
def MemoryPressureMonitor.check (m : MemoryPressureMonitor) (now usage : ℚ) :
    MemoryPressureLevel × MemoryPressureMonitor :=
  if !(m.should_check now) then (m.current_level, m)
  else
    let lvl := classifyUsage m.config usage
    (lvl, { m with last_check := now, current_level := lvl })

/-- The `cache_reduction_factor` method. -/
def MemoryPressureMonitor.cache_reduction_factor (m : MemoryPressureMonitor) : ℚ :=
  match m.current_level with
  | .Normal => 1
  | .Warning => m.config.warning_cache_factor
  | .Critical => m.config.critical_cache_factor

/-! ### Frame pacing (src/frame_pacing.rs) -/

/-- The constant `DEFAULT_REFRESH_RATE_HZ`. -/
def DEFAULT_REFRESH_RATE_HZ : ℚ := 60

/-- Configuration for frame pacing behavior (`FramePacingConfig`). -/
structure FramePacingConfig where
  vsync_enabled : Bool
  adaptive_vsync : Bool
  smoothing_factor : ℚ
  drop_threshold : ℚ
  debug_logging : Bool
  deriving DecidableEq, Repr

/-- The `Default` impl for `FramePacingConfig`. -/
def FramePacingConfig.default : FramePacingConfig :=
  { vsync_enabled := true
    adaptive_vsync := true
    smoothing_factor := 1/10
    drop_threshold := 3/2
    debug_logging := false }

/-- Frame timing and pacing state (`FramePacing`). Durations and
timestamps are in seconds. -/
structure FramePacing where
  target_frame_duration : ℚ
  refresh_rate_hz : ℚ
  last_frame_time : ℚ
  last_render_start : Option ℚ
  avg_frame_time : ℚ
  avg_render_time : ℚ
  frame_count : ℕ
  dropped_frames : ℕ
  config : FramePacingConfig
  deriving DecidableEq, Repr

/-- The `FramePacing::with_config` constructor (`now` is the creation
instant recorded into `last_frame_time`). -/
def FramePacing.with_config (config : FramePacingConfig) (now : ℚ) : FramePacing :=
  { target_frame_duration := 1 / DEFAULT_REFRESH_RATE_HZ
    refresh_rate_hz := DEFAULT_REFRESH_RATE_HZ
    last_frame_time := now
    last_render_start := none
    avg_frame_time := 1 / DEFAULT_REFRESH_RATE_HZ
    avg_render_time := 0
    frame_count := 0
    dropped_frames := 0
    config := config }

/-- The `set_refresh_rate` method: a rate in `(0, 360]` is accepted and the
target duration becomes `1 / hz`; any other rate leaves the state
unchanged (the rejection is only logged). -/
def FramePacing.set_refresh_rate (p : FramePacing) (hz : ℚ) : FramePacing :=
  if 0 < hz ∧ hz ≤ 360 then
    { p with refresh_rate_hz := hz, target_frame_duration := 1 / hz }
  else p

/-- The `should_generate_frame` method at instant `now`. -/
def FramePacing.should_generate_frame (p : FramePacing) (now : ℚ) : Bool :=
  if !p.config.vsync_enabled then true
  else
    let elapsed := max (now - p.last_frame_time) 0
    if p.config.adaptive_vsync &&
        decide (p.target_frame_duration * p.config.drop_threshold ≤ elapsed) then
      true
    else
      decide (p.target_frame_duration ≤ elapsed)

/-- The private `smooth_duration` helper (exponential smoothing). -/
def FramePacing.smooth_duration (p : FramePacing) (current new : ℚ) : ℚ :=
  current * (1 - p.config.smoothing_factor) + new * p.config.smoothing_factor

/-- The `begin_frame` method at instant `now`. -/
def FramePacing.begin_frame (p : FramePacing) (now : ℚ) : FramePacing :=
  { p with last_render_start := some now }

/-- The `on_frame_presented` method at instant `now`: updates the render
average when `begin_frame` was tracked, counts a dropped frame when the
observed frame time strictly exceeds `target × drop_threshold`, updates
the frame-time average, and advances `last_frame_time` and the counter. -/
def FramePacing.on_frame_presented (p : FramePacing) (now : ℚ) : FramePacing :=
  let frame_time := max (now - p.last_frame_time) 0
  let p1 :=
    match p.last_render_start with
    | some render_start =>
        { p with
          avg_render_time := p.smooth_duration p.avg_render_time (max (now - render_start) 0)
          last_render_start := none }
    | none => p
  let drop_threshold := p.target_frame_duration * p.config.drop_threshold
  let p2 :=
    if drop_threshold < frame_time then
      { p1 with dropped_frames := p1.dropped_frames + 1 }
    else p1
  { p2 with
    avg_frame_time := p.smooth_duration p.avg_frame_time frame_time
    last_frame_time := now
    frame_count := p2.frame_count + 1 }

/-- The `reset_stats` method. -/
def FramePacing.reset_stats (p : FramePacing) : FramePacing :=
  { p with
    frame_count := 0
    dropped_frames := 0
    avg_frame_time := p.target_frame_duration
    avg_render_time := 0 }

/-- A frame pacer operation, for reasoning over arbitrary call sequences. -/
inductive PacerOp where
  | present (now : ℚ)
  | beginFrame (now : ℚ)
  | setRate (hz : ℚ)
  | resetStats
  deriving DecidableEq, Repr

/-- Apply one pacer operation. -/
def FramePacing.applyOp (p : FramePacing) : PacerOp → FramePacing
  | .present now => p.on_frame_presented now
  | .beginFrame now => p.begin_frame now
  | .setRate hz => p.set_refresh_rate hz
  | .resetStats => p.reset_stats

/-! ### Scroll coalescing (src/scroll_coalescing.rs) -/

/-- The constant `MAX_COALESCED_EVENTS`. -/
def MAX_COALESCED_EVENTS : ℕ := 10

/-- The constant `MAX_COALESCE_TIME_MS`. -/
def MAX_COALESCE_TIME_MS : ℕ := 16

/-- A scroll delta (`euclid` `Vector2D<f32>`), modelled over `ℚ`. -/
structure Vector2 where
  x : ℚ
  y : ℚ
  deriving DecidableEq, Repr

/-- A cursor position (`DeviceIntPoint`, integer device pixels). -/
structure DeviceIntPoint where
  x : ℤ
  y : ℤ
  deriving DecidableEq, Repr

/-- A coalesced scroll event combining multiple raw scroll inputs
(`CoalescedScrollEvent`); timestamps are in milliseconds. -/
structure CoalescedScrollEvent where
  delta : Vector2
  cursor : DeviceIntPoint
  event_count : ℕ
  first_event_time : ℕ
  last_event_time : ℕ
  deriving DecidableEq, Repr

namespace CoalescedScrollEvent

/-- The `CoalescedScrollEvent::new` constructor at instant `now`. -/
def new (delta : Vector2) (cursor : DeviceIntPoint) (now : ℕ) : CoalescedScrollEvent :=
  { delta := delta
    cursor := cursor
    event_count := 1
    first_event_time := now
    last_event_time := now }

/-- The `try_coalesce` method. The Rust method mutates `self` and returns
`true` only when every guard passes (every early `return false` happens
before any mutation), so it is embedded as returning `some` updated event
on success and `none` on failure. The squared cursor distance is computed
exactly over `ℤ` (the Rust cast of the `i32` sum to `f32` is exact for
all distances near the `100.0` threshold). -/
def try_coalesce (e : CoalescedScrollEvent) (delta : Vector2)
    (cursor : DeviceIntPoint) (now : ℕ) : Option CoalescedScrollEvent :=
  let cursor_distance : ℤ := (e.cursor.x - cursor.x) ^ 2 + (e.cursor.y - cursor.y) ^ 2
  if 100 < cursor_distance then none
  else if MAX_COALESCED_EVENTS ≤ e.event_count then none
  else if MAX_COALESCE_TIME_MS < now - e.first_event_time then none
  else
    some
      { delta := ⟨e.delta.x + delta.x, e.delta.y + delta.y⟩
        cursor := cursor
        event_count := e.event_count + 1
        first_event_time := e.first_event_time
        last_event_time := now }

/-- The `should_flush` method at instant `now`. -/
def should_flush (e : CoalescedScrollEvent) (now : ℕ) : Bool :=
  decide (MAX_COALESCED_EVENTS ≤ e.event_count) ||
    decide (MAX_COALESCE_TIME_MS < now - e.first_event_time)

/-- The `average_delta` method, including its zero-count guard branch. -/
def average_delta (e : CoalescedScrollEvent) : Vector2 :=
  if e.event_count = 0 then ⟨0, 0⟩
  else ⟨e.delta.x / (e.event_count : ℚ), e.delta.y / (e.event_count : ℚ)⟩

end CoalescedScrollEvent

/-- Configuration for scroll coalescing behavior (`ScrollCoalescerConfig`). -/
structure ScrollCoalescerConfig where
  max_coalesced_events : ℕ
  max_coalesce_time_ms : ℕ
  cursor_threshold_px : ℚ
  enabled : Bool
  deriving DecidableEq, Repr

/-- The `Default` impl for `ScrollCoalescerConfig`. -/
def ScrollCoalescerConfig.default : ScrollCoalescerConfig :=
  { max_coalesced_events := MAX_COALESCED_EVENTS
    max_coalesce_time_ms := MAX_COALESCE_TIME_MS
    cursor_threshold_px := 10
    enabled := true }

/-- Statistics about coalescing effectiveness (`CoalescingStats`). -/
structure CoalescingStats where
  total_events : ℕ
  coalesced_events : ℕ
  events_saved : ℕ
  deriving DecidableEq, Repr

/-- The `Default` impl for `CoalescingStats`. -/
def CoalescingStats.default : CoalescingStats :=
  { total_events := 0, coalesced_events := 0, events_saved := 0 }

/-- Scroll event coalescer (`ScrollCoalescer`). -/
structure ScrollCoalescer where
  pending : List CoalescedScrollEvent
  config : ScrollCoalescerConfig
  stats : CoalescingStats
  deriving DecidableEq, Repr

namespace ScrollCoalescer

/-- The `ScrollCoalescer::with_config` constructor. -/
def with_config (config : ScrollCoalescerConfig) : ScrollCoalescer :=
  { pending := [], config := config, stats := CoalescingStats.default }

/-- The `ScrollCoalescer::new` constructor (default configuration). -/
def new : ScrollCoalescer :=
  with_config ScrollCoalescerConfig.default

/-- The `for pending in self.pending.iter_mut()` loop of `add_event`:
try each pending batch in order, replacing the first that accepts the
event; `none` when no pending batch accepts it. -/
def coalesceFirst : List CoalescedScrollEvent → Vector2 → DeviceIntPoint → ℕ →
    Option (List CoalescedScrollEvent)
  | [], _, _, _ => none
  | e :: rest, delta, cursor, now =>
    match e.try_coalesce delta cursor now with
    | some e1 => some (e1 :: rest)
    | none =>
      match coalesceFirst rest delta cursor now with
      | some rest1 => some (e :: rest1)
      | none => none

/-- The `add_event` method at instant `now`. -/
def add_event (s : ScrollCoalescer) (delta : Vector2) (cursor : DeviceIntPoint)
    (now : ℕ) : ScrollCoalescer :=
  let stats0 := { s.stats with total_events := s.stats.total_events + 1 }
  if !s.config.enabled then
    { s with stats := stats0
             pending := s.pending ++ [CoalescedScrollEvent.new delta cursor now] }
  else
    match coalesceFirst s.pending delta cursor now with
    | some pending1 =>
        { s with stats := { stats0 with events_saved := stats0.events_saved + 1 }
                 pending := pending1 }
    | none =>
        { s with stats := stats0
                 pending := s.pending ++ [CoalescedScrollEvent.new delta cursor now] }

/-- The `flush` method at instant `now`: partition pending events on
`should_flush`, keep the rest, return the ready ones. -/
def flush (s : ScrollCoalescer) (now : ℕ) :
    List CoalescedScrollEvent × ScrollCoalescer :=
  let ready := s.pending.filter (fun e => e.should_flush now)
  let keep := s.pending.filter (fun e => !(e.should_flush now))
  (ready,
   { s with pending := keep
            stats := { s.stats with
                       coalesced_events := s.stats.coalesced_events + ready.length } })

/-- The `flush_all` method: unconditionally drain everything. -/
def flush_all (s : ScrollCoalescer) :
    List CoalescedScrollEvent × ScrollCoalescer :=
  (s.pending,
   { s with pending := []
            stats := { s.stats with
                       coalesced_events := s.stats.coalesced_events + s.pending.length } })

/-- The `has_pending` method. -/
def has_pending (s : ScrollCoalescer) : Bool :=
  !s.pending.isEmpty

end ScrollCoalescer

/-- A coalescer operation, for reasoning over arbitrary call sequences. -/
inductive CoalOp where
  | add (delta : Vector2) (cursor : DeviceIntPoint) (now : ℕ)
  | flushReady (now : ℕ)
  | flushAll
  deriving DecidableEq, Repr

/-- Run a sequence of coalescer operations, collecting every batch emitted
by the flush operations (in order). Returns (final state, emitted batches). -/
def runCoal : ScrollCoalescer → List CoalOp → ScrollCoalescer × List CoalescedScrollEvent
  | s, [] => (s, [])
  | s, .add d c t :: ops => runCoal (s.add_event d c t) ops
  | s, .flushReady t :: ops =>
    let r := s.flush t
    let rest := runCoal r.2 ops
    (rest.1, r.1 ++ rest.2)
  | s, .flushAll :: ops =>
    let r := s.flush_all
    let rest := runCoal r.2 ops
    (rest.1, r.1 ++ rest.2)

/-- A raw scroll input: delta, cursor, arrival instant (ms). -/
abbrev RawScroll := Vector2 × DeviceIntPoint × ℕ

/-- Feed a list of raw scroll inputs through `add_event`. -/
def addEvents (s : ScrollCoalescer) (es : List RawScroll) : ScrollCoalescer :=
  es.foldl (fun s e => s.add_event e.1 e.2.1 e.2.2) s

/-- Whether every raw input in the list coalesces into the running batch,
each against the batch state left by its predecessors (cursor within the
proximity threshold, count under the limit, within the hold time). -/
def chainOK : CoalescedScrollEvent → List RawScroll → Bool
  | _, [] => true
  | b, e :: rest =>
    match b.try_coalesce e.1 e.2.1 e.2.2 with
    | some b1 => chainOK b1 rest
    | none => false

/-- The batch obtained by coalescing each raw input of the list in turn
(meaningful when `chainOK` holds; on a failing input the batch is kept). -/
def chainEnd : CoalescedScrollEvent → List RawScroll → CoalescedScrollEvent
  | b, [] => b
  | b, e :: rest =>
    match b.try_coalesce e.1 e.2.1 e.2.2 with
    | some b1 => chainEnd b1 rest
    | none => b

/-- The deltas added over a sequence of coalescer operations (in order). -/
def addedDeltas (ops : List CoalOp) : List Vector2 :=
  ops.filterMap fun op =>
    match op with
    | .add d _ _ => some d
    | _ => none

/-- Sum of the x components of the pending deltas of a batch list. -/
def sumDeltaX (l : List CoalescedScrollEvent) : ℚ :=
  (l.map fun e => e.delta.x).sum

/-- Sum of the y components of the pending deltas of a batch list. -/
def sumDeltaY (l : List CoalescedScrollEvent) : ℚ :=
  (l.map fun e => e.delta.y).sum

/-! ### Paint metric state machine (src/compositor.rs) -/

/-- The paint status of a particular pipeline (`PaintMetricState`): the
epoch is a WebRender epoch (`u32`), the `Bool` is `first_reflow`. -/
inductive PaintMetricState where
  | Waiting
  | Seen (epoch : ℕ) (first_reflow : Bool)
  | Sent
  deriving DecidableEq, Repr

namespace PaintMetricState

/-- Modelled from the spec: `note_display_list_received` on one
paint-metric slot — the transition code of the orchestrator is not among
the provided sources (src/compositor.rs carries only the data
declarations). Per the spec, if the slot is `Waiting` it transitions to
`Seen(epoch, is_first_reflow)`; otherwise it is unchanged. -/
def noteDisplayList (s : PaintMetricState) (epoch : ℕ) (first_reflow : Bool) :
    PaintMetricState :=
  match s with
  | .Waiting => .Seen epoch first_reflow
  | other => other

/-- Modelled from the spec: `note_frame_presented` on one paint-metric
slot — the transition code of the orchestrator is not among the provided
sources. Per the spec, a slot in `Seen(e, _)` with `e ≤ presented`
transitions to `Sent` and emits exactly one metric event (the second
component counts events emitted by this step); every other slot state is
unchanged and emits nothing. This is the only path that reaches `Sent`. -/
def noteFramePresented (s : PaintMetricState) (presented : ℕ) :
    PaintMetricState × ℕ :=
  match s with
  | .Seen e _ => if e ≤ presented then (.Sent, 1) else (s, 0)
  | other => (other, 0)

/-- An operation on one paint-metric slot. -/
inductive Op where
  | display (epoch : ℕ) (first_reflow : Bool)
  | frame (presented : ℕ)
  deriving DecidableEq, Repr

/-- Apply one slot operation; the second component counts metric events
emitted by this step. -/
def applyOp (s : PaintMetricState) : Op → PaintMetricState × ℕ
  | .display e fr => (s.noteDisplayList e fr, 0)
  | .frame pe => s.noteFramePresented pe

/-- Run a sequence of slot operations, counting all emitted metric events. -/
def runOps : PaintMetricState → List Op → PaintMetricState × ℕ
  | s, [] => (s, 0)
  | s, op :: ops =>
    let r := s.applyOp op
    let rest := runOps r.1 ops
    (rest.1, r.2 + rest.2)

/-- Progress rank of a slot: `Waiting` 0, `Seen` 1, `Sent` 2. -/
def rank : PaintMetricState → ℕ
  | .Waiting => 0
  | .Seen _ _ => 1
  | .Sent => 2

end PaintMetricState

/-! ### Resource tracker (src/resource_tracker.rs) -/

/-- Tracks resources associated with a pipeline for cleanup
(`PipelineResources`); the WebRender key types are opaque identifiers,
modelled as `ℕ`. -/
structure PipelineResources where
  image_keys : List ℕ
  font_keys : List ℕ
  font_instance_keys : List ℕ
  deriving DecidableEq, Repr

namespace PipelineResources

/-- The `PipelineResources::new` constructor (empty ledger). -/
def new : PipelineResources :=
  { image_keys := [], font_keys := [], font_instance_keys := [] }

/-- The `track_image` method. -/
def track_image (r : PipelineResources) (key : ℕ) : PipelineResources :=
  { r with image_keys := r.image_keys ++ [key] }

/-- The `track_font` method. -/
def track_font (r : PipelineResources) (key : ℕ) : PipelineResources :=
  { r with font_keys := r.font_keys ++ [key] }

/-- The `track_font_instance` method. -/
def track_font_instance (r : PipelineResources) (key : ℕ) : PipelineResources :=
  { r with font_instance_keys := r.font_instance_keys ++ [key] }

/-- The `is_empty` method. -/
def is_empty (r : PipelineResources) : Bool :=
  r.image_keys.isEmpty && r.font_keys.isEmpty && r.font_instance_keys.isEmpty

/-- The `resource_count` method. -/
def resource_count (r : PipelineResources) : ℕ :=
  r.image_keys.length + r.font_keys.length + r.font_instance_keys.length

/-- The `clear` method: empties all three key lists in one call. -/
def clear (r : PipelineResources) : PipelineResources :=
  { r with image_keys := [], font_keys := [], font_instance_keys := [] }

/-- Modelled from the spec: the `drain()` operation — it is not among the
provided sources (src/resource_tracker.rs defines only `clear`, whose doc
comment has the caller read the contents and send the cleanup transaction
first). Per the spec, `drain` empties all three sets in a single step and
returns their prior contents as one cleanup descriptor together with the
emptied tracker. -/
def drain (r : PipelineResources) : PipelineResources × PipelineResources :=
  (r, r.clear)

end PipelineResources

/-! ## Helper lemmas -/

/-- A rate accepted or rejected, the target duration stays positive. -/
lemma set_refresh_rate_target_pos (p : FramePacing) (hz : ℚ)
    (h : 0 < p.target_frame_duration) :
    0 < (p.set_refresh_rate hz).target_frame_duration := by
  unfold FramePacing.set_refresh_rate
  split_ifs with hv
  · simpa using one_div_pos.mpr hv.1
  · exact h

/-- Positivity of the target duration is preserved along any sequence of
`set_refresh_rate` calls. -/
lemma foldl_set_refresh_rate_target_pos (rates : List ℚ) :
    ∀ p : FramePacing, 0 < p.target_frame_duration →
      0 < (rates.foldl FramePacing.set_refresh_rate p).target_frame_duration := by
  induction rates with
  | nil => intro p hp; simpa using hp
  | cons hz rest ih =>
    intro p hp
    simpa [List.foldl] using ih _ (set_refresh_rate_target_pos p hz hp)

/-- The dropped-frames counter after `on_frame_presented`: incremented
exactly when the observed frame time strictly exceeds the drop
threshold. -/
lemma on_frame_presented_dropped (p : FramePacing) (now : ℚ) :
    (p.on_frame_presented now).dropped_frames =
      if p.target_frame_duration * p.config.drop_threshold < max (now - p.last_frame_time) 0 then
        p.dropped_frames + 1
      else p.dropped_frames := by
  cases h : p.last_render_start <;>
    simp [FramePacing.on_frame_presented, h] <;> split_ifs <;> rfl

/-- Fields of the pacer unaffected (or advanced) by `on_frame_presented`. -/
lemma on_frame_presented_state (p : FramePacing) (now : ℚ) :
    (p.on_frame_presented now).last_frame_time = now ∧
    (p.on_frame_presented now).target_frame_duration = p.target_frame_duration ∧
    (p.on_frame_presented now).config = p.config ∧
    (p.on_frame_presented now).frame_count = p.frame_count + 1 := by
  cases h : p.last_render_start <;>
    simp [FramePacing.on_frame_presented, h] <;> split_ifs <;> simp

/-- A single operation on a `Sent` slot changes nothing and emits
nothing. -/
lemma applyOp_sent (op : PaintMetricState.Op) :
    PaintMetricState.applyOp .Sent op = (.Sent, 0) := by
  cases op <;>
    simp [PaintMetricState.applyOp, PaintMetricState.noteDisplayList,
      PaintMetricState.noteFramePresented]

/-- A whole operation sequence on a `Sent` slot changes nothing and emits
nothing. -/
lemma runOps_sent (ops : List PaintMetricState.Op) :
    PaintMetricState.runOps .Sent ops = (.Sent, 0) := by
  induction ops with
  | nil => rfl
  | cons op rest ih =>
    simp [PaintMetricState.runOps, applyOp_sent op, ih]

/-- A single operation emits at most one event, and an emitting operation
lands the slot in `Sent`. -/
lemma applyOp_emit (s : PaintMetricState) (op : PaintMetricState.Op) :
    (s.applyOp op).2 ≤ 1 ∧ ((s.applyOp op).2 = 1 → (s.applyOp op).1 = .Sent) := by
  cases s <;> cases op <;>
    simp [PaintMetricState.applyOp, PaintMetricState.noteDisplayList,
      PaintMetricState.noteFramePresented] <;>
    split_ifs <;> simp

/-- Over any operation sequence a slot emits at most one metric event. -/
lemma runOps_emit_le_one (ops : List PaintMetricState.Op) :
    ∀ s : PaintMetricState, (PaintMetricState.runOps s ops).2 ≤ 1 := by
  induction ops with
  | nil => intro s; simp [PaintMetricState.runOps]
  | cons op rest ih =>
    intro s
    have hstep := applyOp_emit s op
    rcases Nat.le_one_iff_eq_zero_or_eq_one.mp hstep.1 with h0 | h1
    · simpa [PaintMetricState.runOps, h0] using ih (s.applyOp op).1
    · have hsent := hstep.2 h1
      simp [PaintMetricState.runOps, h1, hsent, runOps_sent]

/-- On success, `try_coalesce` returns the batch with the delta
accumulated, the cursor replaced, the count incremented and the last
event time advanced. -/
lemma try_coalesce_some {b b' : CoalescedScrollEvent} {d : Vector2}
    {c : DeviceIntPoint} {t : ℕ}
    (h : b.try_coalesce d c t = some b') :
    b' = ⟨⟨b.delta.x + d.x, b.delta.y + d.y⟩, c, b.event_count + 1,
      b.first_event_time, t⟩ := by
  unfold CoalescedScrollEvent.try_coalesce at h
  dsimp only at h
  split_ifs at h
  all_goals simp_all

/-- Summed x deltas distribute over list append. -/
lemma sumDeltaX_append (a b : List CoalescedScrollEvent) :
    sumDeltaX (a ++ b) = sumDeltaX a + sumDeltaX b := by
  simp [sumDeltaX]

/-- Summed y deltas distribute over list append. -/
lemma sumDeltaY_append (a b : List CoalescedScrollEvent) :
    sumDeltaY (a ++ b) = sumDeltaY a + sumDeltaY b := by
  simp [sumDeltaY]

/-- A successful merge into a pending list raises its summed x delta by
exactly the x component of the raw delta. -/
lemma coalesceFirst_sumX {d : Vector2} {c : DeviceIntPoint} {t : ℕ} :
    ∀ {l l' : List CoalescedScrollEvent},
      ScrollCoalescer.coalesceFirst l d c t = some l' →
      sumDeltaX l' = sumDeltaX l + d.x := by
  intro l
  induction l with
  | nil => intro l' h; simp [ScrollCoalescer.coalesceFirst] at h
  | cons e rest ih =>
    intro l' h
    unfold ScrollCoalescer.coalesceFirst at h
    cases htc : e.try_coalesce d c t with
    | some e1 =>
      rw [htc] at h
      obtain rfl := Option.some.inj h
      rw [try_coalesce_some htc]
      simp [sumDeltaX]
      ring
    | none =>
      rw [htc] at h
      cases hcf : ScrollCoalescer.coalesceFirst rest d c t with
      | some rest1 =>
        rw [hcf] at h
        obtain rfl := Option.some.inj h
        have := ih hcf
        simp [sumDeltaX] at this ⊢
        linarith
      | none => rw [hcf] at h; simp at h

/-- A successful merge into a pending list raises its summed y delta by
exactly the y component of the raw delta. -/
lemma coalesceFirst_sumY {d : Vector2} {c : DeviceIntPoint} {t : ℕ} :
    ∀ {l l' : List CoalescedScrollEvent},
      ScrollCoalescer.coalesceFirst l d c t = some l' →
      sumDeltaY l' = sumDeltaY l + d.y := by
  intro l
  induction l with
  | nil => intro l' h; simp [ScrollCoalescer.coalesceFirst] at h
  | cons e rest ih =>
    intro l' h
    unfold ScrollCoalescer.coalesceFirst at h
    cases htc : e.try_coalesce d c t with
    | some e1 =>
      rw [htc] at h
      obtain rfl := Option.some.inj h
      rw [try_coalesce_some htc]
      simp [sumDeltaY]
      ring
    | none =>
      rw [htc] at h
      cases hcf : ScrollCoalescer.coalesceFirst rest d c t with
      | some rest1 =>
        rw [hcf] at h
        obtain rfl := Option.some.inj h
        have := ih hcf
        simp [sumDeltaY] at this ⊢
        linarith
      | none => rw [hcf] at h; simp at h

/-- The coalescer configuration is never modified by `add_event`. -/
lemma add_event_config (s : ScrollCoalescer) (d : Vector2) (c : DeviceIntPoint) (t : ℕ) :
    (s.add_event d c t).config = s.config := by
  unfold ScrollCoalescer.add_event
  cases he : s.config.enabled
  · simp [he]
  · cases hcf : ScrollCoalescer.coalesceFirst s.pending d c t <;> simp [he, hcf]

/-- Adding one raw event raises the summed pending x delta by exactly the
raw x delta, whether it merges or opens a new batch. -/
lemma add_event_sumX (s : ScrollCoalescer) (d : Vector2) (c : DeviceIntPoint) (t : ℕ) :
    sumDeltaX (s.add_event d c t).pending = sumDeltaX s.pending + d.x := by
  unfold ScrollCoalescer.add_event
  cases he : s.config.enabled
  · simp [he, sumDeltaX_append, sumDeltaX, CoalescedScrollEvent.new]
  · cases hcf : ScrollCoalescer.coalesceFirst s.pending d c t with
    | some l' => simpa [he, hcf] using coalesceFirst_sumX hcf
    | none => simp [he, hcf, sumDeltaX_append, sumDeltaX, CoalescedScrollEvent.new]

/-- Adding one raw event raises the summed pending y delta by exactly the
raw y delta, whether it merges or opens a new batch. -/
lemma add_event_sumY (s : ScrollCoalescer) (d : Vector2) (c : DeviceIntPoint) (t : ℕ) :
    sumDeltaY (s.add_event d c t).pending = sumDeltaY s.pending + d.y := by
  unfold ScrollCoalescer.add_event
  cases he : s.config.enabled
  · simp [he, sumDeltaY_append, sumDeltaY, CoalescedScrollEvent.new]
  · cases hcf : ScrollCoalescer.coalesceFirst s.pending d c t with
    | some l' => simpa [he, hcf] using coalesceFirst_sumY hcf
    | none => simp [he, hcf, sumDeltaY_append, sumDeltaY, CoalescedScrollEvent.new]

/-- Partitioning a list by a predicate preserves any mapped sum. -/
lemma sum_map_filter_partition (l : List CoalescedScrollEvent)
    (p : CoalescedScrollEvent → Bool) (f : CoalescedScrollEvent → ℚ) :
    ((l.filter p).map f).sum + ((l.filter fun e => !(p e)).map f).sum = (l.map f).sum := by
  induction l with
  | nil => simp
  | cons e rest ih =>
    cases hp : p e <;> simp [List.filter_cons, hp] <;> linarith

/-- Conservation of the total x displacement: pending plus emitted equals
the initial pending plus everything added, over any operation sequence. -/
lemma runCoal_sumX (ops : List CoalOp) :
    ∀ s : ScrollCoalescer,
      sumDeltaX (runCoal s ops).1.pending + sumDeltaX (runCoal s ops).2 =
        sumDeltaX s.pending + ((addedDeltas ops).map fun v => v.x).sum := by
  induction ops with
  | nil => intro s; simp [runCoal, addedDeltas, sumDeltaX]
  | cons op rest ih =>
    intro s
    cases op with
    | add d c t =>
      have h := ih (s.add_event d c t)
      rw [add_event_sumX] at h
      simp only [runCoal, addedDeltas, List.filterMap_cons] at h ⊢
      simp [List.map_cons, List.sum_cons, addedDeltas] at h ⊢
      linarith
    | flushReady t =>
      have h := ih (s.flush t).2
      have hpart := sum_map_filter_partition s.pending
        (fun e => e.should_flush t) (fun e => e.delta.x)
      simp only [runCoal, addedDeltas, List.filterMap_cons] at h ⊢
      simp [ScrollCoalescer.flush, sumDeltaX_append, sumDeltaX, addedDeltas] at h ⊢
      linarith
    | flushAll =>
      have h := ih s.flush_all.2
      simp only [runCoal, addedDeltas, List.filterMap_cons] at h ⊢
      simp [ScrollCoalescer.flush_all, sumDeltaX_append, sumDeltaX, addedDeltas] at h ⊢
      linarith

/-- Conservation of the total y displacement: pending plus emitted equals
the initial pending plus everything added, over any operation sequence. -/
lemma runCoal_sumY (ops : List CoalOp) :
    ∀ s : ScrollCoalescer,
      sumDeltaY (runCoal s ops).1.pending + sumDeltaY (runCoal s ops).2 =
        sumDeltaY s.pending + ((addedDeltas ops).map fun v => v.y).sum := by
  induction ops with
  | nil => intro s; simp [runCoal, addedDeltas, sumDeltaY]
  | cons op rest ih =>
    intro s
    cases op with
    | add d c t =>
      have h := ih (s.add_event d c t)
      rw [add_event_sumY] at h
      simp only [runCoal, addedDeltas, List.filterMap_cons] at h ⊢
      simp [List.map_cons, List.sum_cons, addedDeltas] at h ⊢
      linarith
    | flushReady t =>
      have h := ih (s.flush t).2
      have hpart := sum_map_filter_partition s.pending
        (fun e => e.should_flush t) (fun e => e.delta.y)
      simp only [runCoal, addedDeltas, List.filterMap_cons] at h ⊢
      simp [ScrollCoalescer.flush, sumDeltaY_append, sumDeltaY, addedDeltas] at h ⊢
      linarith
    | flushAll =>
      have h := ih s.flush_all.2
      simp only [runCoal, addedDeltas, List.filterMap_cons] at h ⊢
      simp [ScrollCoalescer.flush_all, sumDeltaY_append, sumDeltaY, addedDeltas] at h ⊢
      linarith

/-- Along a fully coalescable chain the final batch accumulates the whole
count and both delta components. -/
lemma chainEnd_spec (es : List RawScroll) :
    ∀ b : CoalescedScrollEvent, chainOK b es = true →
      (chainEnd b es).event_count = b.event_count + es.length ∧
      (chainEnd b es).delta.x = b.delta.x + (es.map fun e => e.1.x).sum ∧
      (chainEnd b es).delta.y = b.delta.y + (es.map fun e => e.1.y).sum := by
  induction es with
  | nil => intro b h; simp [chainEnd]
  | cons e rest ih =>
    intro b h
    unfold chainOK at h
    cases htc : b.try_coalesce e.1 e.2.1 e.2.2 with
    | none => rw [htc] at h; simp at h
    | some b1 =>
      rw [htc] at h
      have hb1 := try_coalesce_some htc
      subst hb1
      obtain ⟨hc, hx, hy⟩ := ih _ h
      simp only [chainEnd, htc]
      refine ⟨?_, ?_, ?_⟩
      · simp only [List.length_cons]
        simp at hc
        omega
      · simp only [List.map_cons, List.sum_cons]
        simp at hx
        linarith
      · simp only [List.map_cons, List.sum_cons]
        simp at hy
        linarith

/-- Feeding a fully coalescable chain into a coalescer holding exactly one
batch leaves exactly that batch, fully accumulated. -/
lemma addEvents_chain (es : List RawScroll) :
    ∀ (s : ScrollCoalescer) (b : CoalescedScrollEvent),
      s.config.enabled = true → s.pending = [b] → chainOK b es = true →
      (addEvents s es).pending = [chainEnd b es] := by
  induction es with
  | nil => intro s b he hp h; simpa [addEvents, chainEnd] using hp
  | cons e rest ih =>
    intro s b he hp h
    unfold chainOK at h
    cases htc : b.try_coalesce e.1 e.2.1 e.2.2 with
    | none => rw [htc] at h; simp at h
    | some b1 =>
      rw [htc] at h
      have hstep : (s.add_event e.1 e.2.1 e.2.2).pending = [b1] := by
        simp [ScrollCoalescer.add_event, he, hp, ScrollCoalescer.coalesceFirst, htc]
      have hcfg : (s.add_event e.1 e.2.1 e.2.2).config.enabled = true := by
        rw [add_event_config]; exact he
      have hfold : addEvents s (e :: rest) = addEvents (s.add_event e.1 e.2.1 e.2.2) rest := by
        simp [addEvents]
      rw [hfold]
      simp only [chainEnd, htc]
      exact ih _ b1 hcfg hstep h

/-- Two coalescers with equal pending lists, equal stats and the same
enabled flag produce equal pending lists and stats after `add_event`. -/
lemma add_event_rel (s1 s2 : ScrollCoalescer)
    (hp : s1.pending = s2.pending) (hs : s1.stats = s2.stats)
    (he : s1.config.enabled = s2.config.enabled)
    (d : Vector2) (c : DeviceIntPoint) (t : ℕ) :
    (s1.add_event d c t).pending = (s2.add_event d c t).pending ∧
    (s1.add_event d c t).stats = (s2.add_event d c t).stats := by
  unfold ScrollCoalescer.add_event
  rw [hp, hs, he]
  cases henb : s2.config.enabled
  · simp
  · cases hcf : ScrollCoalescer.coalesceFirst s2.pending d c t <;> simp [hcf]

/-- Two coalescers with equal pending lists and stats agree on `flush`. -/
lemma flush_rel (s1 s2 : ScrollCoalescer)
    (hp : s1.pending = s2.pending) (hs : s1.stats = s2.stats) (t : ℕ) :
    (s1.flush t).1 = (s2.flush t).1 ∧
    (s1.flush t).2.pending = (s2.flush t).2.pending ∧
    (s1.flush t).2.stats = (s2.flush t).2.stats := by
  unfold ScrollCoalescer.flush
  rw [hp, hs]
  exact ⟨rfl, rfl, rfl⟩

/-- Two coalescers with equal pending lists and stats agree on
`flush_all`. -/
lemma flush_all_rel (s1 s2 : ScrollCoalescer)
    (hp : s1.pending = s2.pending) (hs : s1.stats = s2.stats) :
    s1.flush_all.1 = s2.flush_all.1 ∧
    s1.flush_all.2.pending = s2.flush_all.2.pending ∧
    s1.flush_all.2.stats = s2.flush_all.2.stats := by
  unfold ScrollCoalescer.flush_all
  rw [hp, hs]
  exact ⟨rfl, rfl, rfl⟩

/-- The configuration is untouched by `flush`. -/
lemma flush_config (s : ScrollCoalescer) (t : ℕ) : (s.flush t).2.config = s.config := rfl

/-- The configuration is untouched by `flush_all`. -/
lemma flush_all_config (s : ScrollCoalescer) : s.flush_all.2.config = s.config := rfl

/-- Two coalescers with equal pending lists, equal stats and the same
enabled flag emit identical batches and end with equal pending lists and
stats over any operation sequence. -/
lemma runCoal_rel (ops : List CoalOp) :
    ∀ s1 s2 : ScrollCoalescer,
      s1.pending = s2.pending → s1.stats = s2.stats →
      s1.config.enabled = s2.config.enabled →
      (runCoal s1 ops).2 = (runCoal s2 ops).2 ∧
      (runCoal s1 ops).1.pending = (runCoal s2 ops).1.pending ∧
      (runCoal s1 ops).1.stats = (runCoal s2 ops).1.stats := by
  induction ops with
  | nil =>
    intro s1 s2 hp hs he
    exact ⟨rfl, hp, hs⟩
  | cons op rest ih =>
    intro s1 s2 hp hs he
    cases op with
    | add d c t =>
      obtain ⟨hp1, hs1⟩ := add_event_rel s1 s2 hp hs he d c t
      have he1 : (s1.add_event d c t).config.enabled = (s2.add_event d c t).config.enabled := by
        rw [add_event_config, add_event_config]; exact he
      obtain ⟨h1, h2, h3⟩ := ih _ _ hp1 hs1 he1
      exact ⟨h1, h2, h3⟩
    | flushReady t =>
      obtain ⟨hr, hp1, hs1⟩ := flush_rel s1 s2 hp hs t
      have he1 : (s1.flush t).2.config.enabled = (s2.flush t).2.config.enabled := by
        rw [flush_config, flush_config]; exact he
      obtain ⟨h1, h2, h3⟩ := ih _ _ hp1 hs1 he1
      refine ⟨?_, h2, h3⟩
      simp [runCoal, hr, h1]
    | flushAll =>
      obtain ⟨hr, hp1, hs1⟩ := flush_all_rel s1 s2 hp hs
      have he1 : s1.flush_all.2.config.enabled = s2.flush_all.2.config.enabled := by
        rw [flush_all_config, flush_all_config]; exact he
      obtain ⟨h1, h2, h3⟩ := ih _ _ hp1 hs1 he1
      refine ⟨?_, h2, h3⟩
      simp [runCoal, hr, h1]

/-- A successful merge preserves the every-batch-has-a-positive-count
invariant. -/
lemma coalesceFirst_count {d : Vector2} {c : DeviceIntPoint} {t : ℕ} :
    ∀ {l l' : List CoalescedScrollEvent},
      ScrollCoalescer.coalesceFirst l d c t = some l' →
      (∀ e ∈ l, 1 ≤ e.event_count) → ∀ e ∈ l', 1 ≤ e.event_count := by
  intro l
  induction l with
  | nil => intro l' h _; simp [ScrollCoalescer.coalesceFirst] at h
  | cons e rest ih =>
    intro l' h hl
    unfold ScrollCoalescer.coalesceFirst at h
    cases htc : e.try_coalesce d c t with
    | some e1 =>
      rw [htc] at h
      obtain rfl := Option.some.inj h
      intro x hx
      rcases List.mem_cons.mp hx with rfl | hx
      · rw [try_coalesce_some htc]; simp
      · exact hl x (List.mem_cons_of_mem _ hx)
    | none =>
      rw [htc] at h
      cases hcf : ScrollCoalescer.coalesceFirst rest d c t with
      | some rest1 =>
        rw [hcf] at h
        obtain rfl := Option.some.inj h
        intro x hx
        rcases List.mem_cons.mp hx with rfl | hx
        · exact hl x (List.mem_cons_self _ _)
        · exact ih hcf (fun y hy => hl y (List.mem_cons_of_mem _ hy)) x hx
      | none => rw [hcf] at h; simp at h

/-- The positive-count invariant is preserved by `add_event` (a fresh
batch starts at count 1). -/
lemma add_event_count (s : ScrollCoalescer) (d : Vector2) (c : DeviceIntPoint) (t : ℕ)
    (h : ∀ e ∈ s.pending, 1 ≤ e.event_count) :
    ∀ e ∈ (s.add_event d c t).pending, 1 ≤ e.event_count := by
  unfold ScrollCoalescer.add_event
  cases he : s.config.enabled
  · intro e hx
    simp at hx
    rcases hx with hx | rfl
    · exact h e hx
    · simp [CoalescedScrollEvent.new]
  · cases hcf : ScrollCoalescer.coalesceFirst s.pending d c t with
    | some l' =>
      intro e hx
      simp [hcf] at hx
      exact coalesceFirst_count hcf h e hx
    | none =>
      intro e hx
      simp [hcf] at hx
      rcases hx with hx | rfl
      · exact h e hx
      · simp [CoalescedScrollEvent.new]

/-- Every batch pending in, or emitted by, a run that started with the
positive-count invariant has a positive count. -/
lemma runCoal_count (ops : List CoalOp) :
    ∀ s : ScrollCoalescer, (∀ e ∈ s.pending, 1 ≤ e.event_count) →
      (∀ e ∈ (runCoal s ops).1.pending, 1 ≤ e.event_count) ∧
      (∀ e ∈ (runCoal s ops).2, 1 ≤ e.event_count) := by
  induction ops with
  | nil => intro s h; exact ⟨h, by simp [runCoal]⟩
  | cons op rest ih =>
    intro s h
    cases op with
    | add d c t => exact ih _ (add_event_count s d c t h)
    | flushReady t =>
      have hkeep : ∀ e ∈ (s.flush t).2.pending, 1 ≤ e.event_count := by
        intro e hx
        unfold ScrollCoalescer.flush at hx
        simp at hx
        exact h e hx.1
      have hready : ∀ e ∈ (s.flush t).1, 1 ≤ e.event_count := by
        intro e hx
        unfold ScrollCoalescer.flush at hx
        simp at hx
        exact h e hx.1
      obtain ⟨h1, h2⟩ := ih _ hkeep
      refine ⟨h1, ?_⟩
      intro e hx
      simp only [runCoal, List.mem_append] at hx
      rcases hx with hx | hx
      · exact hready e hx
      · exact h2 e hx
    | flushAll =>
      have hkeep : ∀ e ∈ s.flush_all.2.pending, 1 ≤ e.event_count := by
        intro e hx
        simp [ScrollCoalescer.flush_all] at hx
      obtain ⟨h1, h2⟩ := ih _ hkeep
      refine ⟨h1, ?_⟩
      intro e hx
      simp only [runCoal, List.mem_append] at hx
      rcases hx with hx | hx
      · exact h e hx
      · exact h2 e hx

/-! ## Claim C1 -/

/-- C1 counterexample: with the default configuration the critical
threshold is 90, yet a due check that samples utilization exactly at the
critical threshold yields `Warning`, not `Critical` as the claim's "at or
above the critical threshold" requires (the code compares strictly). -/
theorem claim1_counterexample :
    MemoryPressureConfig.default.critical_threshold = 90 ∧
    ((MemoryPressureMonitor.new MemoryPressureConfig.default 0).check 10 90).1 =
      MemoryPressureLevel.Warning := by
  refine ⟨rfl, ?_⟩
  norm_num [MemoryPressureMonitor.check, MemoryPressureMonitor.new,
    MemoryPressureMonitor.should_check, classifyUsage, MemoryPressureConfig.default]

/-- C1 (amended): when a check is due the sampled utilization maps to a
level as a pure function of the two thresholds — at or below the warning
threshold `Normal` (cache factor 1.0), above the warning threshold up to
and including the critical threshold `Warning` (factor 0.5 by default),
strictly above the critical threshold `Critical` (factor 0.25 by
default); and a `check()` before the configured minimum interval has
elapsed returns the cached level with the monitor unchanged, without
consulting the sample. -/
theorem claim1_amended (cfg : MemoryPressureConfig) (m : MemoryPressureMonitor)
    (usage now usage2 now2 : ℚ)
    (hcfg : cfg.warning_threshold ≤ cfg.critical_threshold) :
    (usage ≤ cfg.warning_threshold → classifyUsage cfg usage = .Normal) ∧
    (cfg.warning_threshold < usage → usage ≤ cfg.critical_threshold →
      classifyUsage cfg usage = .Warning) ∧
    (cfg.critical_threshold < usage → classifyUsage cfg usage = .Critical) ∧
    (m.current_level = .Normal → m.cache_reduction_factor = 1) ∧
    (m.current_level = .Warning →
      m.cache_reduction_factor = m.config.warning_cache_factor) ∧
    (m.current_level = .Critical →
      m.cache_reduction_factor = m.config.critical_cache_factor) ∧
    MemoryPressureConfig.default.warning_cache_factor = 1/2 ∧
    MemoryPressureConfig.default.critical_cache_factor = 1/4 ∧
    (m.should_check now = true →
      m.check now usage =
        (classifyUsage m.config usage,
         { m with last_check := now, current_level := classifyUsage m.config usage })) ∧
    (m.should_check now2 = false → m.check now2 usage2 = (m.current_level, m)) := by
  refine ⟨?_, ?_, ?_, ?_, ?_, ?_, rfl, rfl, ?_, ?_⟩
  · intro h
    unfold classifyUsage
    rw [if_neg (by linarith), if_neg (by linarith)]
  · intro h1 h2
    unfold classifyUsage
    rw [if_neg (by linarith), if_pos h1]
  · intro h
    unfold classifyUsage
    rw [if_pos h]
  · intro h
    simp [MemoryPressureMonitor.cache_reduction_factor, h]
  · intro h
    simp [MemoryPressureMonitor.cache_reduction_factor, h]
  · intro h
    simp [MemoryPressureMonitor.cache_reduction_factor, h]
  · intro h
    simp [MemoryPressureMonitor.check, h]
  · intro h
    simp [MemoryPressureMonitor.check, h]

/-- C1 witness: the amended mapping evaluated at the default
configuration (thresholds 70/90): utilization 65 is Normal, 80 is
Warning, 95 is Critical, and a second check after one second (interval
5 s) returns the cached `Normal` with the monitor unchanged. -/
theorem claim1_witness :
    classifyUsage MemoryPressureConfig.default 65 = .Normal ∧
    classifyUsage MemoryPressureConfig.default 80 = .Warning ∧
    classifyUsage MemoryPressureConfig.default 95 = .Critical ∧
    (MemoryPressureMonitor.new MemoryPressureConfig.default 0).check 1 95 =
      (MemoryPressureLevel.Normal,
       MemoryPressureMonitor.new MemoryPressureConfig.default 0) := by
  have hd : MemoryPressureConfig.default.warning_threshold ≤
      MemoryPressureConfig.default.critical_threshold := by
    norm_num [MemoryPressureConfig.default]
  refine ⟨?_, ?_, ?_, ?_⟩
  · exact (claim1_amended MemoryPressureConfig.default
      (MemoryPressureMonitor.new MemoryPressureConfig.default 0) 65 0 0 0 hd).1
      (by norm_num [MemoryPressureConfig.default])
  · exact ((claim1_amended MemoryPressureConfig.default
      (MemoryPressureMonitor.new MemoryPressureConfig.default 0) 80 0 0 0 hd).2.1
      (by norm_num [MemoryPressureConfig.default])
      (by norm_num [MemoryPressureConfig.default]))
  · exact (claim1_amended MemoryPressureConfig.default
      (MemoryPressureMonitor.new MemoryPressureConfig.default 0) 95 0 0 0 hd).2.2.1
      (by norm_num [MemoryPressureConfig.default])
  · exact (claim1_amended MemoryPressureConfig.default
      (MemoryPressureMonitor.new MemoryPressureConfig.default 0) 0 0 95 1 hd).2.2.2.2.2.2.2.2.2
      (by norm_num [MemoryPressureMonitor.should_check, MemoryPressureMonitor.new,
        MemoryPressureConfig.default])

/-! ## Claim C2 -/

/-- C2: `set_refresh_rate(hz)` with a valid rate (0 < hz ≤ 360) sets the
rate and makes the target frame duration exactly `1/hz` (the embedding is
exact where the code is within floating tolerance); an invalid rate
leaves the pacer entirely unchanged; and the target duration stays
strictly positive — both stepwise and along any sequence of
`set_refresh_rate` calls on a freshly constructed pacer. -/
theorem claim2_set_refresh_rate (p : FramePacing) (hz : ℚ)
    (cfg : FramePacingConfig) (now : ℚ) :
    (0 < hz → hz ≤ 360 →
      (p.set_refresh_rate hz).refresh_rate_hz = hz ∧
      (p.set_refresh_rate hz).target_frame_duration = 1 / hz) ∧
    (¬(0 < hz ∧ hz ≤ 360) → p.set_refresh_rate hz = p) ∧
    (0 < p.target_frame_duration → 0 < (p.set_refresh_rate hz).target_frame_duration) ∧
    (∀ rates : List ℚ,
      0 < ((rates.foldl FramePacing.set_refresh_rate
        (FramePacing.with_config cfg now)).target_frame_duration)) := by
  refine ⟨?_, ?_, set_refresh_rate_target_pos p hz, ?_⟩
  · intro h1 h2
    unfold FramePacing.set_refresh_rate
    rw [if_pos ⟨h1, h2⟩]
    exact ⟨rfl, rfl⟩
  · intro h
    unfold FramePacing.set_refresh_rate
    rw [if_neg h]
  · intro rates
    refine foldl_set_refresh_rate_target_pos rates _ ?_
    norm_num [FramePacing.with_config, DEFAULT_REFRESH_RATE_HZ]

/-- C2 witness: from the default pacer (60 Hz), setting 144 Hz yields
rate 144 and target exactly 1/144 s; setting 500 Hz (and −10 Hz) is
rejected and changes nothing; the target stays positive after the whole
sequence. -/
theorem claim2_witness :
    ((FramePacing.with_config FramePacingConfig.default 0).set_refresh_rate 144).refresh_rate_hz
        = 144 ∧
    ((FramePacing.with_config FramePacingConfig.default 0).set_refresh_rate 144).target_frame_duration
        = 1 / 144 ∧
    (FramePacing.with_config FramePacingConfig.default 0).set_refresh_rate 500 =
      FramePacing.with_config FramePacingConfig.default 0 ∧
    (FramePacing.with_config FramePacingConfig.default 0).set_refresh_rate (-10) =
      FramePacing.with_config FramePacingConfig.default 0 ∧
    0 < (([(-10 : ℚ), 500, 144].foldl FramePacing.set_refresh_rate
      (FramePacing.with_config FramePacingConfig.default 0)).target_frame_duration) := by
  refine ⟨?_, ?_, ?_, ?_, ?_⟩
  · exact ((claim2_set_refresh_rate (FramePacing.with_config FramePacingConfig.default 0)
      144 FramePacingConfig.default 0).1 (by norm_num) (by norm_num)).1
  · exact ((claim2_set_refresh_rate (FramePacing.with_config FramePacingConfig.default 0)
      144 FramePacingConfig.default 0).1 (by norm_num) (by norm_num)).2
  · exact (claim2_set_refresh_rate (FramePacing.with_config FramePacingConfig.default 0)
      500 FramePacingConfig.default 0).2.1 (by intro h; exact absurd h.2 (by norm_num))
  · exact (claim2_set_refresh_rate (FramePacing.with_config FramePacingConfig.default 0)
      (-10) FramePacingConfig.default 0).2.1 (by intro h; exact absurd h.1 (by norm_num))
  · exact (claim2_set_refresh_rate (FramePacing.with_config FramePacingConfig.default 0)
      0 FramePacingConfig.default 0).2.2.2 [(-10 : ℚ), 500, 144]

/-! ## Claim C3 -/

/-- C3 counterexample: the dropped-frames counter is not monotonic across
every sequence of pacer operations — after one dropped frame (presented
1 s after creation against a 1/60 s target), `reset_stats` takes the
counter from 1 back to 0. -/
theorem claim3_counterexample :
    ((FramePacing.with_config FramePacingConfig.default 0).on_frame_presented 1).dropped_frames
        = 1 ∧
    (((FramePacing.with_config FramePacingConfig.default 0).on_frame_presented 1).reset_stats).dropped_frames
        = 0 := by
  constructor <;>
    norm_num [FramePacing.on_frame_presented, FramePacing.with_config,
      FramePacing.reset_stats, FramePacing.smooth_duration, FramePacingConfig.default,
      DEFAULT_REFRESH_RATE_HZ]

/-- C3 (amended): the dropped-frames counter never decreases under any
pacer operation other than `reset_stats` (which sets it back to 0); each
`on_frame_presented` whose observed frame time strictly exceeds
`drop_threshold × target_frame_duration` increments the counter by
exactly one, one at or under the threshold leaves it unchanged, and in
particular a frame presented after exactly the target duration records no
drop (given a non-negative target and a drop threshold of at least 1, as
by default). -/
theorem claim3_amended (p : FramePacing) (op : PacerOp) (now : ℚ) :
    (op ≠ .resetStats → p.dropped_frames ≤ (p.applyOp op).dropped_frames) ∧
    (p.reset_stats).dropped_frames = 0 ∧
    (p.target_frame_duration * p.config.drop_threshold < max (now - p.last_frame_time) 0 →
      (p.on_frame_presented now).dropped_frames = p.dropped_frames + 1) ∧
    (max (now - p.last_frame_time) 0 ≤ p.target_frame_duration * p.config.drop_threshold →
      (p.on_frame_presented now).dropped_frames = p.dropped_frames) ∧
    (0 ≤ p.target_frame_duration → 1 ≤ p.config.drop_threshold →
      (p.on_frame_presented (p.last_frame_time + p.target_frame_duration)).dropped_frames
        = p.dropped_frames) := by
  refine ⟨?_, rfl, ?_, ?_, ?_⟩
  · intro hop
    cases op with
    | present t =>
      rw [FramePacing.applyOp, on_frame_presented_dropped]
      split_ifs <;> omega
    | beginFrame t => simp [FramePacing.applyOp, FramePacing.begin_frame]
    | setRate hz =>
      rw [FramePacing.applyOp]
      unfold FramePacing.set_refresh_rate
      split_ifs <;> rfl
    | resetStats => exact absurd rfl hop
  · intro h
    rw [on_frame_presented_dropped, if_pos h]
  · intro h
    rw [on_frame_presented_dropped, if_neg (not_lt.mpr h)]
  · intro h0 h1
    rw [on_frame_presented_dropped, if_neg]
    rw [not_lt]
    have hmul : p.target_frame_duration * 1 ≤
        p.target_frame_duration * p.config.drop_threshold :=
      mul_le_mul_of_nonneg_left h1 h0
    have hmax : max (p.last_frame_time + p.target_frame_duration - p.last_frame_time) 0
        = p.target_frame_duration := by
      rw [add_sub_cancel_left]
      exact max_eq_left h0
    rw [hmax]
    linarith

/-- C3 witness: the amended statement at the default pacer — a frame
1 s late increments the counter from 0 to 1, and a frame after exactly
the 1/60 s target leaves it at 0. -/
theorem claim3_witness :
    ((FramePacing.with_config FramePacingConfig.default 0).on_frame_presented 1).dropped_frames
        = (FramePacing.with_config FramePacingConfig.default 0).dropped_frames + 1 ∧
    ((FramePacing.with_config FramePacingConfig.default 0).on_frame_presented
        ((FramePacing.with_config FramePacingConfig.default 0).last_frame_time +
         (FramePacing.with_config FramePacingConfig.default 0).target_frame_duration)).dropped_frames
        = (FramePacing.with_config FramePacingConfig.default 0).dropped_frames ∧
    (FramePacing.with_config FramePacingConfig.default 0).dropped_frames ≤
      ((FramePacing.with_config FramePacingConfig.default 0).applyOp (.present 1)).dropped_frames := by
  refine ⟨?_, ?_, ?_⟩
  · exact (claim3_amended (FramePacing.with_config FramePacingConfig.default 0)
      .resetStats 1).2.2.1
      (by norm_num [FramePacing.with_config, FramePacingConfig.default, DEFAULT_REFRESH_RATE_HZ])
  · exact (claim3_amended (FramePacing.with_config FramePacingConfig.default 0)
      .resetStats 0).2.2.2.2
      (by norm_num [FramePacing.with_config, DEFAULT_REFRESH_RATE_HZ])
      (by norm_num [FramePacing.with_config, FramePacingConfig.default])
  · exact (claim3_amended (FramePacing.with_config FramePacingConfig.default 0)
      (.present 1) 0).1 (by simp)

/-! ## Claim C7 -/

/-- C7 counterexample: with the default configuration (vsync and adaptive
vsync on, drop threshold 1.5), a frame presented 1 s after creation far
exceeds `target × drop_threshold` (1/40 s) — so per the claim the pacer is
"behind schedule" and `should_generate_frame` should be true immediately —
yet immediately after that presentation `should_generate_frame` is false:
the adaptive branch consults the current elapsed time, not the previous
frame's duration. -/
theorem claim7_counterexample :
    FramePacingConfig.default.vsync_enabled = true ∧
    FramePacingConfig.default.adaptive_vsync = true ∧
    (FramePacing.with_config FramePacingConfig.default 0).target_frame_duration *
        FramePacingConfig.default.drop_threshold < max ((1 : ℚ) - 0) 0 ∧
    ((FramePacing.with_config FramePacingConfig.default 0).on_frame_presented 1).should_generate_frame 1
        = false := by
  refine ⟨rfl, rfl, ?_, ?_⟩
  · norm_num [FramePacing.with_config, FramePacingConfig.default, DEFAULT_REFRESH_RATE_HZ]
  · norm_num [FramePacing.should_generate_frame, FramePacing.on_frame_presented,
      FramePacing.with_config, FramePacing.smooth_duration, FramePacingConfig.default,
      DEFAULT_REFRESH_RATE_HZ]

/-- C7 (amended): with vsync disabled `should_generate_frame` is always
true; with vsync enabled it is true exactly when the elapsed time since
the last presented frame reaches the target frame duration, or — under
adaptive mode — when that same elapsed time reaches
`target × drop_threshold` (the "behind schedule" test is on the current
elapsed time, not on the previous frame's duration); since the default
drop threshold is ≥ 1, the adaptive branch never fires before the plain
one, and the condition collapses to elapsed ≥ target. -/
theorem claim7_amended (p : FramePacing) (now : ℚ) :
    (p.config.vsync_enabled = false → p.should_generate_frame now = true) ∧
    (p.config.vsync_enabled = true →
      (p.should_generate_frame now = true ↔
        p.target_frame_duration ≤ max (now - p.last_frame_time) 0 ∨
        (p.config.adaptive_vsync = true ∧
         p.target_frame_duration * p.config.drop_threshold ≤
           max (now - p.last_frame_time) 0))) ∧
    (p.config.vsync_enabled = true → 0 ≤ p.target_frame_duration →
      1 ≤ p.config.drop_threshold →
      (p.should_generate_frame now = true ↔
        p.target_frame_duration ≤ max (now - p.last_frame_time) 0)) := by
  have hiff : p.config.vsync_enabled = true →
      (p.should_generate_frame now = true ↔
        p.target_frame_duration ≤ max (now - p.last_frame_time) 0 ∨
        (p.config.adaptive_vsync = true ∧
         p.target_frame_duration * p.config.drop_threshold ≤
           max (now - p.last_frame_time) 0)) := by
    intro hv
    by_cases ha : p.config.adaptive_vsync
    · by_cases h2 : p.target_frame_duration * p.config.drop_threshold ≤
          max (now - p.last_frame_time) 0
      · simp [FramePacing.should_generate_frame, hv, ha, h2]
      · simp [FramePacing.should_generate_frame, hv, ha, h2]
    · simp [FramePacing.should_generate_frame, hv, ha]
  refine ⟨?_, hiff, ?_⟩
  · intro hv
    simp [FramePacing.should_generate_frame, hv]
  · intro hv h0 h1
    rw [hiff hv]
    constructor
    · rintro (h | ⟨_, h2⟩)
      · exact h
      · have hmul : p.target_frame_duration * 1 ≤
            p.target_frame_duration * p.config.drop_threshold :=
          mul_le_mul_of_nonneg_left h1 h0
        linarith
    · exact Or.inl

/-- C7 witness: the amended characterization at the default pacer —
exactly at one target duration after creation a frame is due, and
halfway to the target it is not. -/
theorem claim7_witness :
    (FramePacing.with_config FramePacingConfig.default 0).config.vsync_enabled = true ∧
    (FramePacing.with_config FramePacingConfig.default 0).should_generate_frame (1/60) = true ∧
    (FramePacing.with_config FramePacingConfig.default 0).should_generate_frame (1/120) = false := by
  refine ⟨rfl, ?_, ?_⟩
  · exact ((claim7_amended (FramePacing.with_config FramePacingConfig.default 0)
      (1/60)).2.1 rfl).mpr
      (Or.inl (by norm_num [FramePacing.with_config, DEFAULT_REFRESH_RATE_HZ]))
  · have h := (claim7_amended (FramePacing.with_config FramePacingConfig.default 0)
      (1/120)).2.2 rfl
      (by norm_num [FramePacing.with_config, DEFAULT_REFRESH_RATE_HZ])
      (by norm_num [FramePacing.with_config, FramePacingConfig.default])
    rcases Bool.eq_false_or_eq_true
        ((FramePacing.with_config FramePacingConfig.default 0).should_generate_frame (1/120)) with
      hb | hb
    · exfalso
      have := h.mp hb
      rw [show (FramePacing.with_config FramePacingConfig.default 0).target_frame_duration
          = 1/60 from rfl,
        show (FramePacing.with_config FramePacingConfig.default 0).last_frame_time = 0 from rfl]
          at this
      norm_num at this
    · exact hb

/-! ## Claim C4 -/

/-- C4: each paint-metric slot only ever progresses `Waiting → Seen →
Sent`: every single operation leaves the progress rank (Waiting 0, Seen 1,
Sent 2) non-decreasing and raises it by at most one (no transition skips a
state); `Sent` is absorbing both for a single operation and for any whole
operation sequence, emitting nothing; and over any operation sequence at
most one metric event is emitted per slot — hence at most once per
pipeline per metric kind, each pipeline holding two independent slots. -/
theorem claim4_paint_metric (s : PaintMetricState) (op : PaintMetricState.Op)
    (ops : List PaintMetricState.Op) :
    PaintMetricState.rank s ≤ PaintMetricState.rank (s.applyOp op).1 ∧
    PaintMetricState.rank (s.applyOp op).1 ≤ PaintMetricState.rank s + 1 ∧
    PaintMetricState.applyOp .Sent op = (.Sent, 0) ∧
    PaintMetricState.runOps .Sent ops = (.Sent, 0) ∧
    (PaintMetricState.runOps s ops).2 ≤ 1 := by
  refine ⟨?_, ?_, applyOp_sent op, runOps_sent ops, runOps_emit_le_one ops s⟩
  · cases s <;> cases op <;>
      simp [PaintMetricState.applyOp, PaintMetricState.noteDisplayList,
        PaintMetricState.noteFramePresented, PaintMetricState.rank] <;>
      split_ifs <;>
      simp [PaintMetricState.rank]
  · cases s <;> cases op <;>
      simp [PaintMetricState.applyOp, PaintMetricState.noteDisplayList,
        PaintMetricState.noteFramePresented, PaintMetricState.rank] <;>
      split_ifs <;>
      simp [PaintMetricState.rank]

/-! ## Claim C8 -/

/-- C8: the drain operation (modelled from the spec on top of the source's
`clear`) returns, in a single step, a cleanup descriptor holding the prior
contents of all three key sets while the resulting tracker has all three
sets empty — no state with one kind removed and another still present is
ever produced; `clear` itself empties all three sets in one call. -/
theorem claim8_drain (r : PipelineResources) :
    (r.drain).1.image_keys = r.image_keys ∧
    (r.drain).1.font_keys = r.font_keys ∧
    (r.drain).1.font_instance_keys = r.font_instance_keys ∧
    (r.drain).2 = PipelineResources.new ∧
    (r.drain).2.is_empty = true ∧
    (r.drain).2.resource_count = 0 ∧
    r.clear = PipelineResources.new :=
  ⟨rfl, rfl, rfl, rfl, rfl, rfl, rfl⟩

/-! ## Claim C6 -/

/-- C6: twelve scroll events with identical cursor (100,100) and delta
(0,−5), all arriving within the hold-time window (here all at the same
instant), followed by `flush_all()`, yield exactly two batches: the first
with event count 10 and delta (0,−50), the second with event count 2 and
delta (0,−10). -/
theorem claim6_twelve_events :
    ((addEvents ScrollCoalescer.new
        [(⟨0, -5⟩, ⟨100, 100⟩, 0), (⟨0, -5⟩, ⟨100, 100⟩, 0), (⟨0, -5⟩, ⟨100, 100⟩, 0),
         (⟨0, -5⟩, ⟨100, 100⟩, 0), (⟨0, -5⟩, ⟨100, 100⟩, 0), (⟨0, -5⟩, ⟨100, 100⟩, 0),
         (⟨0, -5⟩, ⟨100, 100⟩, 0), (⟨0, -5⟩, ⟨100, 100⟩, 0), (⟨0, -5⟩, ⟨100, 100⟩, 0),
         (⟨0, -5⟩, ⟨100, 100⟩, 0), (⟨0, -5⟩, ⟨100, 100⟩, 0), (⟨0, -5⟩, ⟨100, 100⟩, 0)]).flush_all).1
      = [⟨⟨0, -50⟩, ⟨100, 100⟩, 10, 0, 0⟩, ⟨⟨0, -10⟩, ⟨100, 100⟩, 2, 0, 0⟩] := by
  norm_num [addEvents, ScrollCoalescer.add_event, ScrollCoalescer.new,
    ScrollCoalescer.with_config, ScrollCoalescerConfig.default,
    ScrollCoalescer.coalesceFirst, CoalescedScrollEvent.try_coalesce,
    CoalescedScrollEvent.new, CoalescingStats.default, ScrollCoalescer.flush_all,
    MAX_COALESCED_EVENTS, MAX_COALESCE_TIME_MS]

/-! ## Claim C5 -/

/-- C5: with coalescing enabled, a sequence of raw scroll events each of
which coalesces into the running batch (cursor within the proximity
threshold of the batch's last cursor, under the count limit, within the
hold time) produces exactly one pending batch whose event count is the
number of raw events and whose delta components are exactly the sums of
the raw delta components (the `ℚ` embedding is exact where `f32` is
within standard floating tolerance); and over every operation sequence
the summed delta of pending plus emitted batches equals the initial
pending sum plus the sum of all raw deltas added. -/
theorem claim5_coalescing (cfg : ScrollCoalescerConfig) (d : Vector2)
    (c : DeviceIntPoint) (t : ℕ) (es : List RawScroll)
    (s : ScrollCoalescer) (ops : List CoalOp)
    (he : cfg.enabled = true)
    (hchain : chainOK (CoalescedScrollEvent.new d c t) es = true) :
    ((addEvents (ScrollCoalescer.with_config cfg) ((d, c, t) :: es)).pending.map
        fun b => b.event_count) = [1 + es.length] ∧
    ((addEvents (ScrollCoalescer.with_config cfg) ((d, c, t) :: es)).pending.map
        fun b => b.delta.x) = [d.x + (es.map fun e => e.1.x).sum] ∧
    ((addEvents (ScrollCoalescer.with_config cfg) ((d, c, t) :: es)).pending.map
        fun b => b.delta.y) = [d.y + (es.map fun e => e.1.y).sum] ∧
    sumDeltaX (runCoal s ops).1.pending + sumDeltaX (runCoal s ops).2 =
      sumDeltaX s.pending + ((addedDeltas ops).map fun v => v.x).sum ∧
    sumDeltaY (runCoal s ops).1.pending + sumDeltaY (runCoal s ops).2 =
      sumDeltaY s.pending + ((addedDeltas ops).map fun v => v.y).sum := by
  have hfirst : ((ScrollCoalescer.with_config cfg).add_event d c t).pending =
      [CoalescedScrollEvent.new d c t] := by
    simp [ScrollCoalescer.add_event, ScrollCoalescer.with_config, he,
      ScrollCoalescer.coalesceFirst]
  have hcfg : ((ScrollCoalescer.with_config cfg).add_event d c t).config.enabled = true := by
    rw [add_event_config]; exact he
  have hpend := addEvents_chain es _ _ hcfg hfirst hchain
  obtain ⟨hc, hx, hy⟩ := chainEnd_spec es _ hchain
  have hfold : addEvents (ScrollCoalescer.with_config cfg) ((d, c, t) :: es) =
      addEvents ((ScrollCoalescer.with_config cfg).add_event d c t) es := by
    simp [addEvents]
  refine ⟨?_, ?_, ?_, runCoal_sumX ops s, runCoal_sumY ops s⟩
  · rw [hfold, hpend]
    simp only [List.map_cons, List.map_nil]
    rw [hc]
    simp [CoalescedScrollEvent.new]
  · rw [hfold, hpend]
    simp only [List.map_cons, List.map_nil]
    rw [hx]
    simp [CoalescedScrollEvent.new]
  · rw [hfold, hpend]
    simp only [List.map_cons, List.map_nil]
    rw [hy]
    simp [CoalescedScrollEvent.new]

/-- C5 witness: two coalescable raw events (second cursor one pixel away,
3 ms later) yield a single batch with event count 2 and y delta −10. -/
theorem claim5_witness :
    ScrollCoalescerConfig.default.enabled = true ∧
    chainOK (CoalescedScrollEvent.new ⟨0, -5⟩ ⟨100, 100⟩ 0)
      [(⟨0, -5⟩, ⟨101, 100⟩, 3)] = true ∧
    ((addEvents (ScrollCoalescer.with_config ScrollCoalescerConfig.default)
        [(⟨0, -5⟩, ⟨100, 100⟩, 0), (⟨0, -5⟩, ⟨101, 100⟩, 3)]).pending.map
        fun b => b.event_count) = [2] ∧
    ((addEvents (ScrollCoalescer.with_config ScrollCoalescerConfig.default)
        [(⟨0, -5⟩, ⟨100, 100⟩, 0), (⟨0, -5⟩, ⟨101, 100⟩, 3)]).pending.map
        fun b => b.delta.y) = [-10] := by
  have hchain : chainOK (CoalescedScrollEvent.new ⟨0, -5⟩ ⟨100, 100⟩ 0)
      [((⟨0, -5⟩ : Vector2), (⟨101, 100⟩ : DeviceIntPoint), (3 : ℕ))] = true := by
    norm_num [chainOK, CoalescedScrollEvent.try_coalesce, CoalescedScrollEvent.new,
      MAX_COALESCED_EVENTS, MAX_COALESCE_TIME_MS]
  have h := claim5_coalescing ScrollCoalescerConfig.default ⟨0, -5⟩ ⟨100, 100⟩ 0
    [(⟨0, -5⟩, ⟨101, 100⟩, 3)] ScrollCoalescer.new [] rfl hchain
  refine ⟨rfl, hchain, ?_, ?_⟩
  · simpa using h.1
  · have hy := h.2.2.1
    norm_num at hy
    simpa using hy

/-! ## Claim C9 -/

/-- C9: two configurations that agree on the `enabled` flag — whatever
their `max_coalesced_events`, `max_coalesce_time_ms` and
`cursor_threshold_px` — make the coalescer emit identical batches and end
with identical pending lists and stats on every identical call sequence:
merging, the count cap, the hold time and the proximity test all use the
hard-coded constants, never the configured values. -/
theorem claim9_config_independence (c1 c2 : ScrollCoalescerConfig)
    (pending : List CoalescedScrollEvent) (stats : CoalescingStats)
    (ops : List CoalOp) (h : c1.enabled = c2.enabled) :
    (runCoal ⟨pending, c1, stats⟩ ops).2 = (runCoal ⟨pending, c2, stats⟩ ops).2 ∧
    (runCoal ⟨pending, c1, stats⟩ ops).1.pending =
      (runCoal ⟨pending, c2, stats⟩ ops).1.pending ∧
    (runCoal ⟨pending, c1, stats⟩ ops).1.stats =
      (runCoal ⟨pending, c2, stats⟩ ops).1.stats :=
  runCoal_rel ops ⟨pending, c1, stats⟩ ⟨pending, c2, stats⟩ rfl rfl h

/-- C9 witness: a configuration with count cap 3, hold time 500 ms and
proximity threshold 1 px emits exactly the same batches as the default
configuration on a three-operation sequence. -/
theorem claim9_witness :
    (ScrollCoalescerConfig.mk 3 500 1 true).enabled = ScrollCoalescerConfig.default.enabled ∧
    (runCoal ⟨[], ScrollCoalescerConfig.mk 3 500 1 true, CoalescingStats.default⟩
        [.add ⟨0, -5⟩ ⟨100, 100⟩ 0, .add ⟨1, 2⟩ ⟨100, 100⟩ 20, .flushAll]).2 =
      (runCoal ⟨[], ScrollCoalescerConfig.default, CoalescingStats.default⟩
        [.add ⟨0, -5⟩ ⟨100, 100⟩ 0, .add ⟨1, 2⟩ ⟨100, 100⟩ 20, .flushAll]).2 := by
  refine ⟨rfl, ?_⟩
  exact (claim9_config_independence (ScrollCoalescerConfig.mk 3 500 1 true)
    ScrollCoalescerConfig.default [] CoalescingStats.default
    [.add ⟨0, -5⟩ ⟨100, 100⟩ 0, .add ⟨1, 2⟩ ⟨100, 100⟩ 20, .flushAll] rfl).1

/-! ## Claim C10 -/

/-- C10: starting from any coalescer whose pending batches all have a
positive event count (in particular a fresh one, whose pending list is
empty), every batch ever pending or emitted has event count at least 1 —
a batch is created at count 1 and merging only increments — so the
zero-count guard branch of `average_delta` is unreachable and
`average_delta` is plain component-wise division by the count. -/
theorem claim10_event_count (s : ScrollCoalescer) (ops : List CoalOp)
    (e : CoalescedScrollEvent)
    (h : ∀ x ∈ s.pending, 1 ≤ x.event_count) :
    (∀ x ∈ (runCoal s ops).1.pending, 1 ≤ x.event_count) ∧
    (∀ x ∈ (runCoal s ops).2, 1 ≤ x.event_count) ∧
    (1 ≤ e.event_count →
      e.average_delta =
        ⟨e.delta.x / (e.event_count : ℚ), e.delta.y / (e.event_count : ℚ)⟩) := by
  obtain ⟨h1, h2⟩ := runCoal_count ops s h
  refine ⟨h1, h2, ?_⟩
  intro hc
  unfold CoalescedScrollEvent.average_delta
  rw [if_neg (by omega)]

/-- C10 witness: the single batch emitted after one add and a flush has
count 1, and `average_delta` of a two-event batch with delta (3,4) is
(3/2, 2). -/
theorem claim10_witness :
    1 ≤ (CoalescedScrollEvent.mk ⟨0, -5⟩ ⟨100, 100⟩ 1 0 0).event_count ∧
    (CoalescedScrollEvent.mk ⟨3, 4⟩ ⟨0, 0⟩ 2 0 0).average_delta = ⟨3/2, 2⟩ := by
  constructor
  · refine (claim10_event_count ScrollCoalescer.new
      [.add ⟨0, -5⟩ ⟨100, 100⟩ 0, .flushAll]
      (CoalescedScrollEvent.mk ⟨3, 4⟩ ⟨0, 0⟩ 2 0 0)
      (by simp [ScrollCoalescer.new, ScrollCoalescer.with_config])).2.1
      (CoalescedScrollEvent.mk ⟨0, -5⟩ ⟨100, 100⟩ 1 0 0) ?_
    norm_num [runCoal, ScrollCoalescer.add_event, ScrollCoalescer.new,
      ScrollCoalescer.with_config, ScrollCoalescerConfig.default,
      ScrollCoalescer.coalesceFirst, CoalescedScrollEvent.new,
      CoalescingStats.default, ScrollCoalescer.flush_all]
  · have h := (claim10_event_count ScrollCoalescer.new []
      (CoalescedScrollEvent.mk ⟨3, 4⟩ ⟨0, 0⟩ 2 0 0)
      (by simp [ScrollCoalescer.new, ScrollCoalescer.with_config])).2.2 (by norm_num)
    rw [h]
    norm_num [Vector2.mk.injEq]

end VersoGreen
